import Mathlib

/-!
Verification development for the Sokoban-to-SMV encoding compiler
(`v_sokoban.py`): board parser, predicate builder, model synthesizer and
trace decoder, shallowly embedded as executable Lean definitions.
-/

namespace VSokoban

/-! ## Board parser (`parse_xsb_board`) -/

/-- Character classifier for walls: `ch == '#'`. -/
def isWallCh (c : Char) : Bool := c == '#'

/-- Character classifier for targets: `ch in ['.', '+', '*']`. -/
def isTargetCh (c : Char) : Bool := c == '.' || c == '+' || c == '*'

/-- Character classifier for boxes: `ch in ['$', '*']`. -/
def isBoxCh (c : Char) : Bool := c == '$' || c == '*'

/-- Character classifier for the agent: `ch in ['@', '+']`. -/
def isPlayerCh (c : Char) : Bool := c == '@' || c == '+'

/-- The whitespace characters removed by Python `str.strip()`. -/
def pySpaceCh (c : Char) : Bool :=
  c == ' ' || c == '\t' || c == '\n' || c == '\r' || c == '\x0B' || c == '\x0C'

/-- Python `str.strip()`: remove leading and trailing whitespace. -/
def pyStrip (l : List Char) : List Char :=
  ((l.dropWhile pySpaceCh).reverse.dropWhile pySpaceCh).reverse

/-- Python `str.ljust(w)`: pad on the right with spaces up to width `w`. -/
def ljust (w : Nat) (l : List Char) : List Char :=
  l ++ List.replicate (w - l.length) ' '

/-- The cells of one row (row index `y`, first column `x`) whose character
satisfies `p`, in left-to-right scan order: the inner
`for x, ch in enumerate(row)` loop of `parse_xsb_board` restricted to one
of its membership tests. -/
def scanRow (p : Char → Bool) (y : Nat) : Nat → List Char → List (Nat × Nat)
  | _, [] => []
  | x, c :: cs => if p c then (x, y) :: scanRow p y (x + 1) cs else scanRow p y (x + 1) cs

/-- The cells of all rows (first row index `y`) whose character satisfies
`p`, in row-major scan order: the `for y, line in enumerate(lines)` loop of
`parse_xsb_board` restricted to one membership test. -/
def scanRows (p : Char → Bool) : Nat → List (List Char) → List (Nat × Nat)
  | _, [] => []
  | y, r :: rs => scanRow p y 0 r ++ scanRows p (y + 1) rs

/-- The `player = (x, y)` assignment of `parse_xsb_board` over one row:
the accumulator is overwritten by each agent marker seen (last one wins). -/
def lastPlayerRow (y : Nat) : Nat → Option (Nat × Nat) → List Char → Option (Nat × Nat)
  | _, acc, [] => acc
  | x, acc, c :: cs =>
    lastPlayerRow y (x + 1) (if isPlayerCh c then some (x, y) else acc) cs

/-- The `player` accumulator of `parse_xsb_board` over all rows. -/
def lastPlayerRows : Nat → Option (Nat × Nat) → List (List Char) → Option (Nat × Nat)
  | _, acc, [] => acc
  | y, acc, r :: rs => lastPlayerRows (y + 1) (lastPlayerRow y 0 acc r) rs

/-- The dictionary returned by `parse_xsb_board`.  `walls` is a Python
`set`; it is kept here as the list of wall cells in insertion (row-major)
order, which fixes one concrete iteration order for it. -/
structure Board where
  board : List (List Char)
  width : Nat
  height : Nat
  walls : List (Nat × Nat)
  targets : List (Nat × Nat)
  boxes : List (Nat × Nat)
  player : Option (Nat × Nat)
deriving DecidableEq, Repr

/-- `[line.rstrip("\n") for line in f if line.strip() != ""]`: the
non-blank lines of the input file (each given without its trailing
newline). -/
def boardRows (input : List String) : List (List Char) :=
  (input.map String.toList).filter (fun l => !(pyStrip l).isEmpty)

/-- `max(len(line) for line in lines)` (0 on an empty list). -/
def boardWidth (rows : List (List Char)) : Nat :=
  (rows.map List.length).foldl Nat.max 0

/-- The padded grid `board`: every row `ljust`-ed to the common width. -/
def paddedRows (input : List String) : List (List Char) :=
  (boardRows input).map (ljust (boardWidth (boardRows input)))

/-- `parse_xsb_board`.  Python raises `ValueError` (from `max` on an empty
sequence) when the input has no non-blank line; this is modelled as
`none`.  Otherwise the returned record collects exactly the loop results:
walls / targets / boxes in row-major scan order and the last-seen agent
marker (or `none` when there is none — Python keeps `player = None`). -/
def parse_xsb_board (input : List String) : Option Board :=
  match boardRows input with
  | [] => none
  | _ :: _ =>
    some { board := paddedRows input,
           width := boardWidth (boardRows input),
           height := (boardRows input).length,
           walls := scanRows isWallCh 0 (paddedRows input),
           targets := scanRows isTargetCh 0 (paddedRows input),
           boxes := scanRows isBoxCh 0 (paddedRows input),
           player := lastPlayerRows 0 none (paddedRows input) }

/-! ## Target sorting (`targets.sort(key=lambda pos: (pos[1], pos[0]))`) -/

/-- The comparison underlying the sort key `(pos[1], pos[0])`. -/
def targetLe (a c : Nat × Nat) : Bool :=
  decide (a.2 < c.2) || (a.2 == c.2 && decide (a.1 ≤ c.1))

/-- Insertion step of the sort. -/
def insertT (a : Nat × Nat) : List (Nat × Nat) → List (Nat × Nat)
  | [] => [a]
  | c :: l => if targetLe a c then a :: c :: l else c :: insertT a l

/-- Python `list.sort(key=lambda pos: (pos[1], pos[0]))`, modelled as an
insertion sort by the same key.  The key `(y, x)` determines the element
`(x, y)` completely, so every correct sort by this key (in particular
Python's stable sort) produces exactly this list of values. -/
def pySortTargets : List (Nat × Nat) → List (Nat × Nat)
  | [] => []
  | a :: l => insertT a (pySortTargets l)

/-- The target list after line 81 of the source (`targets.sort(...)`). -/
def sortedTargets (b : Board) : List (Nat × Nat) := pySortTargets b.targets

/-- `enumerate(targets[:num_boxes], start=1)`: the (1-based box index,
target) pairs whose conjunction forms the `win` definition. -/
def winPairs (b : Board) : List (Nat × (Nat × Nat)) :=
  List.enumFrom 1 ((sortedTargets b).take b.boxes.length)

/-! ## Predicate builder (string output, `gen_*` functions) -/

/-- `toString` of a numeric literal. -/
def natS (n : Nat) : String := toString n

/-- `gen_in_bounds`. -/
def gen_in_bounds (ex ey : String) : String :=
  "(" ++ ex ++ " >= 0 & " ++ ex ++ " < WIDTH & " ++ ey ++ " >= 0 & " ++ ey ++ " < HEIGHT)"

/-- `gen_not_wall`. -/
def gen_not_wall (ex ey : String) (walls : List (Nat × Nat)) : String :=
  if walls.isEmpty then "TRUE"
  else "(" ++ String.intercalate " & "
    (walls.map (fun w =>
      "!((" ++ ex ++ " = " ++ natS w.1 ++ ") & (" ++ ey ++ " = " ++ natS w.2 ++ "))")) ++ ")"

/-- `gen_not_box`. -/
def gen_not_box (ex ey : String) (numBoxes : Nat) : String :=
  if numBoxes == 0 then "TRUE"
  else "!(" ++ String.intercalate " | "
    ((List.range' 1 numBoxes).map (fun i =>
      "((" ++ ex ++ " = box_x[" ++ natS i ++ "]) & (" ++ ey ++ " = box_y[" ++ natS i ++ "]))")) ++ ")"

/-- `gen_free_cell`. -/
def gen_free_cell (ex ey : String) (walls : List (Nat × Nat)) (numBoxes : Nat) : String :=
  "(" ++ gen_in_bounds ex ey ++ " & " ++ gen_not_wall ex ey walls ++ " & " ++
    gen_not_box ex ey numBoxes ++ ")"

/-- `gen_box_at`. -/
def gen_box_at (ex ey : String) (numBoxes : Nat) : String :=
  if numBoxes == 0 then "FALSE"
  else "(" ++ String.intercalate " | "
    ((List.range' 1 numBoxes).map (fun i =>
      "((" ++ ex ++ " = box_x[" ++ natS i ++ "]) & (" ++ ey ++ " = box_y[" ++ natS i ++ "]))")) ++ ")"

/-! ## Model synthesizer (`generate_smv_model`), textual layer -/

/-- `generate_smv_model`.  Python dereferences `player[0]` / `player[1]`;
when `player` is `None` this raises `TypeError`, modelled as `none`.
Otherwise the full SMV text is produced, line for line as in the source. -/
def generate_smv_model (b : Board) : Option String :=
  match b.player with
  | none => none
  | some p =>
    let numBoxes := b.boxes.length
    let freeLeft := gen_free_cell "player_x - 1" "player_y" b.walls numBoxes
    let freeRight := gen_free_cell "player_x + 1" "player_y" b.walls numBoxes
    let freeUp := gen_free_cell "player_x" "player_y - 1" b.walls numBoxes
    let freeDown := gen_free_cell "player_x" "player_y + 1" b.walls numBoxes
    let pushLeft := "(" ++ gen_box_at "player_x - 1" "player_y" numBoxes ++ " & " ++
      gen_free_cell "player_x - 2" "player_y" b.walls numBoxes ++ ")"
    let pushRight := "(" ++ gen_box_at "player_x + 1" "player_y" numBoxes ++ " & " ++
      gen_free_cell "player_x + 2" "player_y" b.walls numBoxes ++ ")"
    let pushUp := "(" ++ gen_box_at "player_x" "player_y - 1" numBoxes ++ " & " ++
      gen_free_cell "player_x" "player_y - 2" b.walls numBoxes ++ ")"
    let pushDown := "(" ++ gen_box_at "player_x" "player_y + 1" numBoxes ++ " & " ++
      gen_free_cell "player_x" "player_y + 2" b.walls numBoxes ++ ")"
    let headerLines : List String := [
      "-- Automatically generated SMV model for Sokoban",
      "MODULE main",
      "CONSTANTS",
      "    WIDTH := " ++ natS b.width ++ ";",
      "    HEIGHT := " ++ natS b.height ++ ";",
      "    NUM_BOXES := " ++ natS numBoxes ++ ";",
      "",
      "VAR",
      "    player_x : 0..WIDTH-1;",
      "    player_y : 0..HEIGHT-1;",
      "    box_x : array 1..NUM_BOXES of 0..WIDTH-1;",
      "    box_y : array 1..NUM_BOXES of 0..HEIGHT-1;",
      "    move : \x7bl, r, u, d, L, R, U, D\x7d;",
      "",
      "ASSIGN",
      "    init(player_x) := " ++ natS p.1 ++ ";",
      "    init(player_y) := " ++ natS p.2 ++ ";" ]
    let initBoxLines := (List.enumFrom 1 b.boxes).flatMap (fun ip =>
      [ "    init(box_x[" ++ natS ip.1 ++ "]) := " ++ natS ip.2.1 ++ ";",
        "    init(box_y[" ++ natS ip.1 ++ "]) := " ++ natS ip.2.2 ++ ";" ])
    let playerXLines : List String := [
      "",
      "    next(player_x) := case",
      "        move = l & " ++ freeLeft ++ " : player_x - 1;",
      "        move = r & " ++ freeRight ++ " : player_x + 1;",
      "        move = u & " ++ freeUp ++ " : player_x;",
      "        move = d & " ++ freeDown ++ " : player_x;",
      "        move = L & " ++ pushLeft ++ " : player_x - 1;",
      "        move = R & " ++ pushRight ++ " : player_x + 1;",
      "        move = U & " ++ pushUp ++ " : player_x;",
      "        move = D & " ++ pushDown ++ " : player_x;",
      "        TRUE : player_x;",
      "    esac;",
      "" ]
    let playerYLines : List String := [
      "    next(player_y) := case",
      "        move = l & " ++ freeLeft ++ " : player_y;",
      "        move = r & " ++ freeRight ++ " : player_y;",
      "        move = u & " ++ freeUp ++ " : player_y - 1;",
      "        move = d & " ++ freeDown ++ " : player_y + 1;",
      "        move = L & " ++ pushLeft ++ " : player_y;",
      "        move = R & " ++ pushRight ++ " : player_y;",
      "        move = U & " ++ pushUp ++ " : player_y - 1;",
      "        move = D & " ++ pushDown ++ " : player_y + 1;",
      "        TRUE : player_y;",
      "    esac;",
      "" ]
    let boxNextLines := (List.range' 1 numBoxes).flatMap (fun i => [
      "    next(box_x[" ++ natS i ++ "]) := case",
      "        move = L & (box_x[" ++ natS i ++ "] = player_x - 1 & box_y[" ++ natS i ++
        "] = player_y) & " ++ gen_free_cell "player_x - 2" "player_y" b.walls numBoxes ++
        " : box_x[" ++ natS i ++ "] - 1;",
      "        move = R & (box_x[" ++ natS i ++ "] = player_x + 1 & box_y[" ++ natS i ++
        "] = player_y) & " ++ gen_free_cell "player_x + 2" "player_y" b.walls numBoxes ++
        " : box_x[" ++ natS i ++ "] + 1;",
      "        TRUE : box_x[" ++ natS i ++ "];",
      "    esac;",
      "    next(box_y[" ++ natS i ++ "]) := case",
      "        move = U & (box_x[" ++ natS i ++ "] = player_x & box_y[" ++ natS i ++
        "] = player_y - 1) & " ++ gen_free_cell "player_x" "player_y - 2" b.walls numBoxes ++
        " : box_y[" ++ natS i ++ "] - 1;",
      "        move = D & (box_x[" ++ natS i ++ "] = player_x & box_y[" ++ natS i ++
        "] = player_y + 1) & " ++ gen_free_cell "player_x" "player_y + 2" b.walls numBoxes ++
        " : box_y[" ++ natS i ++ "] + 1;",
      "        TRUE : box_y[" ++ natS i ++ "];",
      "    esac;",
      "" ])
    let winLine := "    win := " ++ String.intercalate " & "
      ((winPairs b).map (fun it =>
        "(box_x[" ++ natS it.1 ++ "] = " ++ natS it.2.1 ++ " & box_y[" ++
          natS it.1 ++ "] = " ++ natS it.2.2 ++ ")")) ++ ";"
    let tailLines : List String := [
      "DEFINE", winLine, "",
      "-- LTL specification: eventually reach a winning state",
      "LTLSPEC",
      "    F win",
      "" ]
    some (String.intercalate "\n"
      (headerLines ++ initBoxLines ++ [""] ++ playerXLines ++ playerYLines ++
        boxNextLines ++ tailLines))

/-- One call of `generate_smv_model` together with its single observable
effect on its argument: line 81 of the source sorts `targets` in place
(before the agent's coordinates are read), so after the call the board's
`targets` field holds the sorted list. -/
def generate_run (b : Board) : Option String × Board :=
  (generate_smv_model b, { b with targets := sortedTargets b })

/-! ## Model synthesizer, semantic layer

The `gen_*` fragments above are boolean SMV expressions over the state
variables `player_x`, `player_y`, `box_x[i]`, `box_y[i]`; the definitions
below give their denotations at a concrete state, and the denotation of
each generated `next(...) := case ... esac;` expression (first matching
guard wins, `TRUE` falls through to "unchanged").  SMV integer terms such
as `player_x - 2` may leave `0..WIDTH-1`, so coordinates are `Int` here. -/

/-- The move enumeration `{l, r, u, d, L, R, U, D}`. -/
inductive Move
  | l | r | u | d | L | R | U | D
deriving DecidableEq, Repr

/-- A state of the generated transition system: the agent's coordinates
and the coordinates of the declared boxes (entry `i - 1` of the list is
`(box_x[i], box_y[i])`). -/
structure StateS where
  px : Int
  py : Int
  boxes : List (Int × Int)
deriving DecidableEq, Repr

/-- Denotation of `gen_in_bounds`. -/
def in_bounds_sem (b : Board) (x y : Int) : Bool :=
  decide (0 ≤ x) && decide (x < (b.width : Int)) &&
    decide (0 ≤ y) && decide (y < (b.height : Int))

/-- Denotation of `gen_not_wall` (conjunction over all wall cells; `TRUE`
when there is none). -/
def not_wall_sem (b : Board) (x y : Int) : Bool :=
  b.walls.all (fun w => !(decide (x = (w.1 : Int)) && decide (y = (w.2 : Int))))

/-- Denotation of `gen_box_at` (disjunction over the boxes' current
positions; `FALSE` when there is no box). -/
def box_at_sem (boxes : List (Int × Int)) (x y : Int) : Bool :=
  boxes.any (fun q => decide (x = q.1) && decide (y = q.2))

/-- Denotation of `gen_not_box` (negated disjunction; `TRUE` when there is
no box — which coincides with the negation of `gen_box_at`'s `FALSE`). -/
def not_box_sem (boxes : List (Int × Int)) (x y : Int) : Bool :=
  !(box_at_sem boxes x y)

/-- Denotation of `gen_free_cell`. -/
def free_cell_sem (b : Board) (boxes : List (Int × Int)) (x y : Int) : Bool :=
  in_bounds_sem b x y && not_wall_sem b x y && not_box_sem boxes x y

/-- The guard of move `m`'s case in the agent's `next(...)` expressions,
with the `move = m` conjunct already discharged: `free_left`/`free_right`/
`free_up`/`free_down` for the simple steps, `push_left`/`push_right`/
`push_up`/`push_down` for the pushes (lines 111-120 of the source). -/
def moveGuard (b : Board) (s : StateS) : Move → Bool
  | .l => free_cell_sem b s.boxes (s.px - 1) s.py
  | .r => free_cell_sem b s.boxes (s.px + 1) s.py
  | .u => free_cell_sem b s.boxes s.px (s.py - 1)
  | .d => free_cell_sem b s.boxes s.px (s.py + 1)
  | .L => box_at_sem s.boxes (s.px - 1) s.py && free_cell_sem b s.boxes (s.px - 2) s.py
  | .R => box_at_sem s.boxes (s.px + 1) s.py && free_cell_sem b s.boxes (s.px + 2) s.py
  | .U => box_at_sem s.boxes s.px (s.py - 1) && free_cell_sem b s.boxes s.px (s.py - 2)
  | .D => box_at_sem s.boxes s.px (s.py + 1) && free_cell_sem b s.boxes s.px (s.py + 2)

/-- Denotation of the generated `next(player_x) := case ... esac;`
(lines 123-133 of the source), guards in emission order. -/
def next_player_x (b : Board) (s : StateS) (m : Move) : Int :=
  if m = Move.l ∧ moveGuard b s Move.l = true then s.px - 1
  else if m = Move.r ∧ moveGuard b s Move.r = true then s.px + 1
  else if m = Move.u ∧ moveGuard b s Move.u = true then s.px
  else if m = Move.d ∧ moveGuard b s Move.d = true then s.px
  else if m = Move.L ∧ moveGuard b s Move.L = true then s.px - 1
  else if m = Move.R ∧ moveGuard b s Move.R = true then s.px + 1
  else if m = Move.U ∧ moveGuard b s Move.U = true then s.px
  else if m = Move.D ∧ moveGuard b s Move.D = true then s.px
  else s.px

/-- Denotation of the generated `next(player_y) := case ... esac;`
(lines 137-147 of the source). -/
def next_player_y (b : Board) (s : StateS) (m : Move) : Int :=
  if m = Move.l ∧ moveGuard b s Move.l = true then s.py
  else if m = Move.r ∧ moveGuard b s Move.r = true then s.py
  else if m = Move.u ∧ moveGuard b s Move.u = true then s.py - 1
  else if m = Move.d ∧ moveGuard b s Move.d = true then s.py + 1
  else if m = Move.L ∧ moveGuard b s Move.L = true then s.py
  else if m = Move.R ∧ moveGuard b s Move.R = true then s.py
  else if m = Move.U ∧ moveGuard b s Move.U = true then s.py - 1
  else if m = Move.D ∧ moveGuard b s Move.D = true then s.py + 1
  else s.py

/-- Denotation of the generated `next(box_x[i]) := case ... esac;`
(lines 153-157 of the source) for the box with current position `q`. -/
def next_box_x (b : Board) (s : StateS) (m : Move) (q : Int × Int) : Int :=
  if m = Move.L ∧ (q.1 = s.px - 1 ∧ q.2 = s.py) ∧
      free_cell_sem b s.boxes (s.px - 2) s.py = true then q.1 - 1
  else if m = Move.R ∧ (q.1 = s.px + 1 ∧ q.2 = s.py) ∧
      free_cell_sem b s.boxes (s.px + 2) s.py = true then q.1 + 1
  else q.1

/-- Denotation of the generated `next(box_y[i]) := case ... esac;`
(lines 160-164 of the source) for the box with current position `q`. -/
def next_box_y (b : Board) (s : StateS) (m : Move) (q : Int × Int) : Int :=
  if m = Move.U ∧ (q.1 = s.px ∧ q.2 = s.py - 1) ∧
      free_cell_sem b s.boxes s.px (s.py - 2) = true then q.2 - 1
  else if m = Move.D ∧ (q.1 = s.px ∧ q.2 = s.py + 1) ∧
      free_cell_sem b s.boxes s.px (s.py + 2) = true then q.2 + 1
  else q.2

/-- Denotation of the generated `win` definition: the conjunction of
"box `i` sits at its paired target" over `winPairs`. -/
def winSem (b : Board) (s : StateS) : Bool :=
  (winPairs b).all (fun it =>
    let q := s.boxes.getD (it.1 - 1) (0, 0)
    decide (q.1 = (it.2.1 : Int)) && decide (q.2 = (it.2.2 : Int)))

/-! ## Trace decoder (`extract_solution`) -/

/-- The characters of the Python literal `"lurdLURD"`, in order. -/
def moveAlphabet : List Char := ['l', 'u', 'r', 'd', 'L', 'U', 'R', 'D']

/-- Python substring membership `n in h` (the empty string is a substring
of everything). -/
def isSubstring (n : List Char) : List Char → Bool
  | [] => n.isPrefixOf []
  | c :: t => n.isPrefixOf (c :: t) || isSubstring n t

/-- Consume an exact literal at the front of the text. -/
def dropLiteral (lit t : List Char) : Option (List Char) :=
  if lit.isPrefixOf t then some (t.drop lit.length) else none

/-- Match the regex `Solution:\s*LURD moves:\s*([lurdLURD]+)` anchored at
the current position, returning the captured group.  The character classes
`\s` and `[lurdLURD]` are disjoint from the literals that follow them, so
the greedy backtracking search of `re` degenerates to this deterministic
scan. -/
def matchSolutionAt (t : List Char) : Option (List Char) := do
  let t1 ← dropLiteral ("Solution:".toList) t
  let t2 := t1.dropWhile pySpaceCh
  let t3 ← dropLiteral ("LURD moves:".toList) t2
  let t4 := t3.dropWhile pySpaceCh
  let run := t4.takeWhile (fun c => moveAlphabet.contains c)
  if run.isEmpty then none else some run

/-- `re.search` for the pattern above: leftmost match wins. -/
def searchSolution : List Char → Option (List Char)
  | [] => matchSolutionAt []
  | c :: t =>
    match matchSolutionAt (c :: t) with
    | some r => some r
    | none => searchSolution t

/-- The value a line assigns to the move selector:
`line.split("=")[-1].strip()` on lines containing `"move ="`
(Python `split` keeps empty segments, `[-1]` is the last). -/
def lineMoveValue (line : List Char) : Option (List Char) :=
  if isSubstring ("move =".toList) line then
    some (pyStrip ((line.splitOn '=').getLastD []))
  else none

/-- `extract_solution`: first the regex tier, then the line-scan tier
collecting every assigned value `v` with `v in "lurdLURD"` (Python
substring membership) and concatenating, `none` when the collected list is
empty. -/
def extract_solution (t : List Char) : Option (List Char) :=
  match searchSolution t with
  | some run => some run
  | none =>
    let lurds := (t.splitOn '\n').filterMap (fun line =>
      match lineMoveValue line with
      | some v => if isSubstring v moveAlphabet then some v else none
      | none => none)
    if lurds.isEmpty then none else some lurds.flatten

/-- Strict version of the sort-key comparison: `(y, x)` lexicographically
smaller.  The cells produced by a row-major scan are strictly increasing
under this order. -/
def targetLtP (a c : Nat × Nat) : Prop :=
  a.2 < c.2 ∨ (a.2 = c.2 ∧ a.1 < c.1)

/-! ## Concrete boards used in the claim theorems -/

/-- The round-trip scenario board `"#####\n#@$.#\n#####"`, as file lines. -/
def c1Input : List String := ["#####", "#@$.#", "#####"]

/-- The parse result of `c1Input`. -/
def c1Board : Board :=
  { board := [['#', '#', '#', '#', '#'], ['#', '@', '$', '.', '#'], ['#', '#', '#', '#', '#']],
    width := 5, height := 3,
    walls := [(0, 0), (1, 0), (2, 0), (3, 0), (4, 0), (0, 1), (4, 1),
              (0, 2), (1, 2), (2, 2), (3, 2), (4, 2)],
    targets := [(3, 1)], boxes := [(2, 1)], player := some (1, 1) }

/-- The initial state of the model generated from `c1Board`: the values
fixed by the emitted `init(...)` constraints. -/
def c1Init : StateS := { px := 1, py := 1, boxes := [(2, 1)] }

/-- The parse result of `["#@#"]`: a well-formed board with zero boxes. -/
def c2Board : Board :=
  { board := [['#', '@', '#']], width := 3, height := 1,
    walls := [(0, 0), (2, 0)], targets := [], boxes := [], player := some (1, 0) }

/-- The parse result of `[".$@"]`. -/
def c3Board : Board :=
  { board := [['.', '$', '@']], width := 3, height := 1,
    walls := [], targets := [(0, 0)], boxes := [(1, 0)], player := some (2, 0) }

/-- The parse result of `["$$..."]`: two boxes, three targets. -/
def c5Board : Board :=
  { board := [['$', '$', '.', '.', '.']], width := 5, height := 1,
    walls := [], targets := [(2, 0), (3, 0), (4, 0)], boxes := [(0, 0), (1, 0)],
    player := none }

/-- The parse result of `["###"]`: a board without an agent marker. -/
def c10aBoard : Board :=
  { board := [['#', '#', '#']], width := 3, height := 1,
    walls := [(0, 0), (1, 0), (2, 0)], targets := [], boxes := [], player := none }

/-- The parse result of `["@@"]`: a board with two agent markers. -/
def c10bBoard : Board :=
  { board := [['@', '@']], width := 2, height := 1,
    walls := [], targets := [], boxes := [], player := some (1, 0) }

/-! ## Claim theorems -/

/-- C1, counterexample: on the board `"#####\n#@$.#\n#####"` the guard of
the lowercase `r` case (simple step right, `free(player_x + 1, player_y)`)
is FALSE in the initial state, because the box occupies cell (2,1) — so
the claim's "the guard of the `r` case holds" fails on the code; the
enabled move is the push `R`. -/
theorem c1_simple_step_right_guard_false :
    parse_xsb_board c1Input = some c1Board ∧
    c1Board.player = some (1, 1) ∧ c1Board.boxes = [(2, 1)] ∧
    moveGuard c1Board c1Init Move.r = false ∧
    moveGuard c1Board c1Init Move.R = true := by decide

/-- C1, amended: on the round-trip board the synthesized model enables
exactly one first move, namely the push `R` (uppercase): in the initial
state the guard of the `R` case holds and the guard of every other move's
case is false; the model declares exactly one box, and the goal has
exactly one conjunct pairing box 1 with target (3,1). -/
theorem c1_only_push_right_enabled :
    parse_xsb_board c1Input = some c1Board ∧
    c1Board.player = some (1, 1) ∧ c1Board.boxes = [(2, 1)] ∧
    moveGuard c1Board c1Init Move.R = true ∧
    moveGuard c1Board c1Init Move.l = false ∧
    moveGuard c1Board c1Init Move.r = false ∧
    moveGuard c1Board c1Init Move.u = false ∧
    moveGuard c1Board c1Init Move.d = false ∧
    moveGuard c1Board c1Init Move.L = false ∧
    moveGuard c1Board c1Init Move.U = false ∧
    moveGuard c1Board c1Init Move.D = false ∧
    next_player_x c1Board c1Init Move.R = 2 ∧
    next_box_x c1Board c1Init Move.R (2, 1) = 3 ∧
    c1Board.boxes.length = 1 ∧
    winPairs c1Board = [(1, (3, 1))] := by decide

/-- C2: on every well-formed parsed board (agent present) with zero boxes
the synthesizer does not fail: it produces a model text, and the emitted
goal is the empty conjunction — a vacuous, trivially-true predicate that
holds in every state. -/
theorem zero_boxes_model_vacuous_goal (b : Board)
    (hp : b.player.isSome = true) (hb : b.boxes = []) :
    (generate_smv_model b).isSome = true ∧ winPairs b = [] ∧
    ∀ s : StateS, winSem b s = true := by
  refine ⟨?_, ?_, ?_⟩
  · rcases b with ⟨bd, w, h, ws, ts, bs, pl⟩
    cases pl with
    | none => simp at hp
    | some p => simp [generate_smv_model]
  · simp [winPairs, hb]
  · intro s
    simp [winSem, winPairs, hb]

/-- C2 witness: the zero-box board parsed from `["#@#"]`. -/
theorem zero_boxes_model_vacuous_goal_witness :
    (generate_smv_model c2Board).isSome = true ∧ winPairs c2Board = [] ∧
    winSem c2Board { px := 1, py := 0, boxes := [] } = true := by
  have h := zero_boxes_model_vacuous_goal c2Board (by decide) (by decide)
  exact ⟨h.1, h.2.1, h.2.2 _⟩

/-- C4, counterexample: the second tier collects assigned values that are
NOT single letters of the move alphabet, because the source tests
`move in "lurdLURD"`, which is Python substring membership.  The empty
value of `"move ="` is collected (so the decoder returns the empty string
instead of the no-solution signal), and the multi-character token of
`"move = ur"` is collected verbatim. -/
theorem tier2_collects_nonalphabet_values :
    extract_solution ("move =".toList) = some [] ∧
    extract_solution ("move = ur".toList) = some ("ur".toList) := by decide

/-- C9: the trace decoder is total; when the text contains neither a
solution annotation (regex tier fails) nor any line containing `"move ="`,
it returns the "no solution" signal `none` rather than failing. -/
theorem decoder_no_pattern_none (t : List Char)
    (h1 : searchSolution t = none)
    (h2 : ∀ line ∈ t.splitOn '\n', isSubstring ("move =".toList) line = false) :
    extract_solution t = none := by
  unfold extract_solution
  rw [h1]
  have hnil : (t.splitOn '\n').filterMap (fun line =>
      match lineMoveValue line with
      | some v => if isSubstring v moveAlphabet then some v else none
      | none => none) = [] := by
    rw [List.filterMap_eq_nil_iff]
    intro line hl
    have h := h2 line hl
    simp at h
    simp [lineMoveValue, h]
  simp [hnil]

/-- C9 witness: a text with neither pattern decodes to `none`. -/
theorem decoder_no_pattern_none_witness :
    extract_solution ("hello there".toList) = none :=
  decoder_no_pattern_none _ (by decide) (by decide)

/-- C4, amended: the second tier collects, in line order, exactly those
assigned values that are contiguous substrings of the alphabet string
`"lurdLURD"` (each single alphabet letter qualifies, but so do the empty
value and multi-character contiguous runs), and concatenates them; the
scenario `move = r` then `move = D` still decodes to `"rD"`. -/
theorem tier2_substring_filter :
    (∀ t : List Char, searchSolution t = none →
      extract_solution t =
        (if (((t.splitOn '\n').filterMap lineMoveValue).filter
              (fun v => isSubstring v moveAlphabet)).isEmpty then none
         else some ((((t.splitOn '\n').filterMap lineMoveValue).filter
              (fun v => isSubstring v moveAlphabet)).flatten))) ∧
    extract_solution ("move = r\nmove = D".toList) = some ("rD".toList) := by
  constructor
  · intro t h
    unfold extract_solution
    rw [h]
    have key : ∀ L : List (List Char),
        L.filterMap (fun line => match lineMoveValue line with
          | some v => if isSubstring v moveAlphabet then some v else none
          | none => none)
        = (L.filterMap lineMoveValue).filter (fun v => isSubstring v moveAlphabet) := by
      intro L
      induction L with
      | nil => rfl
      | cons a L ih =>
        cases hv : lineMoveValue a with
        | none => simp [List.filterMap_cons, hv, ih]
        | some v =>
          by_cases hs : isSubstring v moveAlphabet = true
          · simp [List.filterMap_cons, hv, hs, List.filter_cons, ih]
          · simp [List.filterMap_cons, hv, hs, List.filter_cons, ih]
    simp only [key]
  · decide

/-- C4 witness for the amended second tier: a single-letter assignment. -/
theorem tier2_substring_filter_witness :
    extract_solution ("move = u".toList) = some ("u".toList) :=
  (tier2_substring_filter.1 ("move = u".toList) (by decide)).trans (by decide)

/-- Helper: a successful anchored match makes `re.search` succeed with the
same captured run. -/
theorem searchSolution_eq_of_matchAt (t r : List Char)
    (h : matchSolutionAt t = some r) : searchSolution t = some r := by
  cases t with
  | nil => simpa [searchSolution] using h
  | cons c t => simp [searchSolution, h]

/-- Helper: the move-alphabet letters are not whitespace. -/
theorem alpha_not_space (c : Char) (h : moveAlphabet.contains c = true) :
    pySpaceCh c = false := by
  simp [moveAlphabet] at h
  rcases h with h | h | h | h | h | h | h | h <;> subst h <;> decide

/-- Helper: `takeWhile` takes exactly a maximal satisfying prefix. -/
theorem takeWhile_append_all (f : Char → Bool) :
    ∀ (run rest : List Char), (∀ c ∈ run, f c = true) →
      (∀ c ∈ rest.head?, f c = false) →
      (run ++ rest).takeWhile f = run := by
  intro run
  induction run with
  | nil =>
    intro rest _ hrest
    cases rest with
    | nil => rfl
    | cons c t =>
      have hc : f c = false := hrest c (by simp)
      simp [List.takeWhile_cons, hc]
  | cons a run ih =>
    intro rest hall hrest
    have ha : f a = true := hall a (by simp)
    simp [List.takeWhile_cons, ha,
      ih rest (fun c hc => hall c (by simp [hc])) hrest]

/-- Helper: the anchored regex match on an annotation of the shape
`Solution: LURD moves: <run><rest>` captures exactly `run` when `run` is a
nonempty maximal alphabet run. -/
theorem matchSolutionAt_shape (run rest : List Char) (hne : run ≠ [])
    (hall : ∀ c ∈ run, moveAlphabet.contains c = true)
    (hrest : ∀ c ∈ rest.head?, moveAlphabet.contains c = false) :
    matchSolutionAt ("Solution: LURD moves: ".toList ++ (run ++ rest)) = some run := by
  obtain ⟨a, run', rfl⟩ : ∃ a run', run = a :: run' := by
    cases run with
    | nil => exact absurd rfl hne
    | cons a r => exact ⟨a, r, rfl⟩
  have step : matchSolutionAt ("Solution: LURD moves: ".toList ++ ((a :: run') ++ rest)) =
      (if ((List.dropWhile pySpaceCh (a :: (run' ++ rest))).takeWhile
            (fun c => moveAlphabet.contains c)).isEmpty
       then none
       else some ((List.dropWhile pySpaceCh (a :: (run' ++ rest))).takeWhile
            (fun c => moveAlphabet.contains c))) := by
    rfl
  have hnotsp : pySpaceCh a = false := alpha_not_space a (hall a (by simp))
  rw [step, List.dropWhile_cons, hnotsp]
  have ht : (a :: (run' ++ rest)).takeWhile (fun c => moveAlphabet.contains c) = a :: run' := by
    have h := takeWhile_append_all (fun c => moveAlphabet.contains c) (a :: run') rest hall hrest
    simpa using h
  simp only [Bool.false_eq_true, if_false]
  rw [ht]
  rfl

/-- C8: the first decoder tier takes precedence over the second: whenever
the regex tier matches, its captured run is returned and the
move-assignment lines are ignored; any text of the shape
`Solution: LURD moves: <run><rest>` (with `<run>` a nonempty maximal
alphabet run) decodes to `<run>` verbatim; in particular
`Solution: LURD moves: rrDD` followed by a `move = l` line decodes to
`"rrDD"`. -/
theorem tier1_precedence :
    (∀ t run : List Char, searchSolution t = some run → extract_solution t = some run) ∧
    (∀ run rest : List Char, run ≠ [] → (∀ c ∈ run, moveAlphabet.contains c = true) →
      (∀ c ∈ rest.head?, moveAlphabet.contains c = false) →
      extract_solution ("Solution: LURD moves: ".toList ++ run ++ rest) = some run) ∧
    extract_solution ("Solution: LURD moves: rrDD\nmove = l".toList) = some ("rrDD".toList) := by
  have hpre : ∀ t run : List Char, searchSolution t = some run →
      extract_solution t = some run := by
    intro t run h
    unfold extract_solution
    rw [h]
  refine ⟨hpre, ?_, by decide⟩
  intro run rest hne hall hrest
  rw [List.append_assoc]
  exact hpre _ _ (searchSolution_eq_of_matchAt _ _
    (matchSolutionAt_shape run rest hne hall hrest))

/-- C8 witness: both universal parts at concrete texts. -/
theorem tier1_precedence_witness :
    extract_solution ("Solution: LURD moves: rD".toList) = some ("rD".toList) ∧
    extract_solution ("Solution: LURD moves: ".toList ++ "UU".toList ++ "\nmove = d".toList) =
      some ("UU".toList) :=
  ⟨tier1_precedence.1 _ _ (by decide),
   tier1_precedence.2.1 ("UU".toList) ("\nmove = d".toList) (by decide) (by decide) (by decide)⟩

/-- Helper: `enumerate` is zipping with a range. -/
theorem enumFrom_eq_zip_range {α : Type} :
    ∀ (l : List α) (n : Nat), List.enumFrom n l = (List.range' n l.length).zip l := by
  intro l
  induction l with
  | nil => intro n; rfl
  | cons a l ih => intro n; simp [List.enumFrom, List.range'_succ, ih]

/-- Helper: zipping against a long-enough prefix is zipping against the
whole list. -/
theorem zip_take_right {α β : Type} :
    ∀ (xs : List α) (ys : List β) (k : Nat),
      xs.length ≤ k → xs.zip (ys.take k) = xs.zip ys := by
  intro xs
  induction xs with
  | nil => intro ys k _; simp
  | cons a xs ih =>
    intro ys k hk
    cases ys with
    | nil => simp
    | cons b ys =>
      cases k with
      | zero => simp at hk
      | succ k =>
        have hk' : xs.length ≤ k := by simp at hk; omega
        simp [List.take_succ_cons, ih ys k hk']

/-- C5: the emitted goal is the conjunction over `i = 1..min(numBoxes,
numTargets)` of "box `i` is at sorted target `i`": `winPairs` pairs the
indices `1..min` positionally with the sorted targets; for the board with
2 boxes and 3 sorted targets the goal references exactly targets 1 and 2
and never target 3. -/
theorem goal_pairs_min_boxes_targets :
    (∀ b : Board, winPairs b =
      (List.range' 1 (min b.boxes.length (sortedTargets b).length)).zip (sortedTargets b)) ∧
    parse_xsb_board ["$$..."] = some c5Board ∧
    sortedTargets c5Board = [(2, 0), (3, 0), (4, 0)] ∧
    c5Board.boxes.length = 2 ∧
    winPairs c5Board = [(1, (2, 0)), (2, (3, 0))] := by
  refine ⟨?_, by decide, by decide, by decide, by decide⟩
  intro b
  unfold winPairs
  rw [enumFrom_eq_zip_range, List.length_take]
  exact zip_take_right _ _ _ (by rw [List.length_range']; exact Nat.min_le_left _ _)

/-- C6: in the generated transition system a box's coordinates change in a
step only when the selected move is the push whose direction matches the
box being exactly one cell from the agent in that direction and the
landing cell two cells from the agent is free; in every other case both
coordinates are unchanged. -/
theorem box_moves_only_on_matching_push (b : Board) (s : StateS) (m : Move) (q : Int × Int) :
    (next_box_x b s m q = q.1 ∧ next_box_y b s m q = q.2) ∨
    (m = Move.L ∧ q.1 = s.px - 1 ∧ q.2 = s.py ∧
      free_cell_sem b s.boxes (s.px - 2) s.py = true ∧
      next_box_x b s m q = q.1 - 1 ∧ next_box_y b s m q = q.2) ∨
    (m = Move.R ∧ q.1 = s.px + 1 ∧ q.2 = s.py ∧
      free_cell_sem b s.boxes (s.px + 2) s.py = true ∧
      next_box_x b s m q = q.1 + 1 ∧ next_box_y b s m q = q.2) ∨
    (m = Move.U ∧ q.1 = s.px ∧ q.2 = s.py - 1 ∧
      free_cell_sem b s.boxes s.px (s.py - 2) = true ∧
      next_box_x b s m q = q.1 ∧ next_box_y b s m q = q.2 - 1) ∨
    (m = Move.D ∧ q.1 = s.px ∧ q.2 = s.py + 1 ∧
      free_cell_sem b s.boxes s.px (s.py + 2) = true ∧
      next_box_x b s m q = q.1 ∧ next_box_y b s m q = q.2 + 1) := by
  cases m with
  | l => exact Or.inl (by simp [next_box_x, next_box_y])
  | r => exact Or.inl (by simp [next_box_x, next_box_y])
  | u => exact Or.inl (by simp [next_box_x, next_box_y])
  | d => exact Or.inl (by simp [next_box_x, next_box_y])
  | L =>
    by_cases h : (q.1 = s.px - 1 ∧ q.2 = s.py) ∧
        free_cell_sem b s.boxes (s.px - 2) s.py = true
    · exact Or.inr (Or.inl ⟨rfl, h.1.1, h.1.2, h.2,
        by simp [next_box_x, h.1.1, h.1.2, h.2], by simp [next_box_y]⟩)
    · exact Or.inl ⟨by simp [next_box_x, h], by simp [next_box_y]⟩
  | R =>
    by_cases h : (q.1 = s.px + 1 ∧ q.2 = s.py) ∧
        free_cell_sem b s.boxes (s.px + 2) s.py = true
    · exact Or.inr (Or.inr (Or.inl ⟨rfl, h.1.1, h.1.2, h.2,
        by simp [next_box_x, h.1.1, h.1.2, h.2], by simp [next_box_y]⟩))
    · exact Or.inl ⟨by simp [next_box_x, h], by simp [next_box_y]⟩
  | U =>
    by_cases h : (q.1 = s.px ∧ q.2 = s.py - 1) ∧
        free_cell_sem b s.boxes s.px (s.py - 2) = true
    · exact Or.inr (Or.inr (Or.inr (Or.inl ⟨rfl, h.1.1, h.1.2, h.2,
        by simp [next_box_x], by simp [next_box_y, h.1.1, h.1.2, h.2]⟩)))
    · exact Or.inl ⟨by simp [next_box_x], by simp [next_box_y, h]⟩
  | D =>
    by_cases h : (q.1 = s.px ∧ q.2 = s.py + 1) ∧
        free_cell_sem b s.boxes s.px (s.py + 2) = true
    · exact Or.inr (Or.inr (Or.inr (Or.inr ⟨rfl, h.1.1, h.1.2, h.2,
        by simp [next_box_x], by simp [next_box_y, h.1.1, h.1.2, h.2]⟩)))
    · exact Or.inl ⟨by simp [next_box_x], by simp [next_box_y, h]⟩

/-- C7: vertical moves and pushes never change the agent's x-coordinate,
horizontal moves and pushes never change the agent's y-coordinate, and
each agent coordinate changes only when the selected move belongs to its
own axis and that move's guard holds (the `TRUE` fall-through keeps it
constant otherwise). -/
theorem agent_axis_separation (b : Board) (s : StateS) (m : Move) :
    ((m = Move.u ∨ m = Move.d ∨ m = Move.U ∨ m = Move.D) → next_player_x b s m = s.px) ∧
    ((m = Move.l ∨ m = Move.r ∨ m = Move.L ∨ m = Move.R) → next_player_y b s m = s.py) ∧
    (next_player_x b s m ≠ s.px →
      (m = Move.l ∨ m = Move.r ∨ m = Move.L ∨ m = Move.R) ∧ moveGuard b s m = true) ∧
    (next_player_y b s m ≠ s.py →
      (m = Move.u ∨ m = Move.d ∨ m = Move.U ∨ m = Move.D) ∧ moveGuard b s m = true) := by
  have hx : ∀ m' : Move, next_player_x b s m' =
      if (m' = Move.l ∨ m' = Move.L) ∧ moveGuard b s m' = true then s.px - 1
      else if (m' = Move.r ∨ m' = Move.R) ∧ moveGuard b s m' = true then s.px + 1
      else s.px := by
    intro m'
    cases m' <;> simp [next_player_x]
  have hy : ∀ m' : Move, next_player_y b s m' =
      if (m' = Move.u ∨ m' = Move.U) ∧ moveGuard b s m' = true then s.py - 1
      else if (m' = Move.d ∨ m' = Move.D) ∧ moveGuard b s m' = true then s.py + 1
      else s.py := by
    intro m'
    cases m' <;> simp [next_player_y]
  refine ⟨?_, ?_, ?_, ?_⟩
  · intro hm
    rw [hx]
    rcases hm with rfl | rfl | rfl | rfl <;> simp
  · intro hm
    rw [hy]
    rcases hm with rfl | rfl | rfl | rfl <;> simp
  · intro hne
    rw [hx] at hne
    by_cases h1 : (m = Move.l ∨ m = Move.L) ∧ moveGuard b s m = true
    · exact ⟨by rcases h1.1 with rfl | rfl <;> simp, h1.2⟩
    · by_cases h2 : (m = Move.r ∨ m = Move.R) ∧ moveGuard b s m = true
      · exact ⟨by rcases h2.1 with rfl | rfl <;> simp, h2.2⟩
      · rw [if_neg h1, if_neg h2] at hne
        exact absurd rfl hne
  · intro hne
    rw [hy] at hne
    by_cases h1 : (m = Move.u ∨ m = Move.U) ∧ moveGuard b s m = true
    · exact ⟨by rcases h1.1 with rfl | rfl <;> simp, h1.2⟩
    · by_cases h2 : (m = Move.d ∨ m = Move.D) ∧ moveGuard b s m = true
      · exact ⟨by rcases h2.1 with rfl | rfl <;> simp, h2.2⟩
      · rw [if_neg h1, if_neg h2] at hne
        exact absurd rfl hne

/-- C7 witness: on the round-trip board's initial state, a vertical move
keeps `player_x`, a horizontal move keeps `player_y`, and the changed
x-coordinate under the push `R` certifies that `R`'s guard held. -/
theorem agent_axis_separation_witness :
    next_player_x c1Board c1Init Move.u = c1Init.px ∧
    next_player_y c1Board c1Init Move.R = c1Init.py ∧
    ((Move.R = Move.l ∨ Move.R = Move.r ∨ Move.R = Move.L ∨ Move.R = Move.R) ∧
      moveGuard c1Board c1Init Move.R = true) :=
  ⟨(agent_axis_separation c1Board c1Init Move.u).1 (Or.inl rfl),
   (agent_axis_separation c1Board c1Init Move.R).2.1 (Or.inr (Or.inr (Or.inr rfl))),
   (agent_axis_separation c1Board c1Init Move.R).2.2.1 (by decide)⟩

/-- Helper: `getLast?` of a cons, expressed with `Option.or`. -/
theorem getLast?_cons_or {α : Type} (a : α) (l : List α) :
    (a :: l).getLast? = l.getLast?.or (some a) := by
  cases l with
  | nil => rfl
  | cons b t =>
    rw [List.getLast?_cons_cons]
    cases h : (b :: t).getLast? with
    | some q => rfl
    | none => exact absurd (List.getLast?_eq_none_iff.mp h) (by simp)

/-- Helper: `getLast?` of an append, expressed with `Option.or`. -/
theorem getLast?_append_or {α : Type} :
    ∀ (l l' : List α), (l ++ l').getLast? = l'.getLast?.or l.getLast? := by
  intro l
  induction l with
  | nil => intro l'; simp [Option.or_none]
  | cons a l ih =>
    intro l'
    rw [List.cons_append, getLast?_cons_or, ih, Option.or_assoc, ← getLast?_cons_or]

/-- Helper: over one row, the last-wins accumulator equals the last agent
marker of the row scan (or the incoming accumulator when there is none). -/
theorem lastPlayerRow_eq (y : Nat) :
    ∀ (cs : List Char) (x : Nat) (acc : Option (Nat × Nat)),
      lastPlayerRow y x acc cs = ((scanRow isPlayerCh y x cs).getLast?).or acc := by
  intro cs
  induction cs with
  | nil => intro x acc; rfl
  | cons c cs ih =>
    intro x acc
    by_cases hc : isPlayerCh c = true
    · simp only [lastPlayerRow, scanRow, hc, if_true, if_pos]
      rw [ih, getLast?_cons_or, Option.or_assoc]
      rfl
    · simp only [lastPlayerRow, scanRow, hc, if_false, if_neg]
      exact ih (x + 1) acc

/-- Helper: over all rows, the last-wins accumulator equals the last agent
marker in row-major scan order. -/
theorem lastPlayerRows_eq :
    ∀ (rows : List (List Char)) (y : Nat) (acc : Option (Nat × Nat)),
      lastPlayerRows y acc rows = ((scanRows isPlayerCh y rows).getLast?).or acc := by
  intro rows
  induction rows with
  | nil => intro y acc; rfl
  | cons r rs ih =>
    intro y acc
    simp only [lastPlayerRows, scanRows]
    rw [ih, lastPlayerRow_eq, getLast?_append_or, Option.or_assoc]

/-- C10: for every successfully parsed board, the `player` field is the
last agent marker in row-major scan order — in particular `none` when the
input has no agent marker, in which case parsing still succeeds and the
synthesizer fails (the `TypeError` on `player[0]`, modelled as `none`). -/
theorem agent_absent_or_last_wins (input : List String) (b : Board)
    (h : parse_xsb_board input = some b) :
    b.player = (scanRows isPlayerCh 0 (paddedRows input)).getLast? ∧
    (b.player = none → generate_smv_model b = none) := by
  constructor
  · have hb : b.player = lastPlayerRows 0 none (paddedRows input) := by
      unfold parse_xsb_board at h
      rcases hrows : boardRows input with _ | ⟨r, rs⟩
      · rw [hrows] at h; simp at h
      · rw [hrows] at h
        rw [← Option.some.inj h]
    rw [hb, lastPlayerRows_eq]
    exact Option.or_none
  · intro hp
    simp [generate_smv_model, hp]

/-- C10 witness: the agentless board `["###"]` parses with `player = none`
and the synthesizer fails on it; the two-agent board `["@@"]` keeps the
last marker `(1, 0)`. -/
theorem agent_absent_or_last_wins_witness :
    c10aBoard.player = none ∧ generate_smv_model c10aBoard = none ∧
    c10bBoard.player = some (1, 0) := by
  have ha := agent_absent_or_last_wins ["###"] c10aBoard (by decide)
  have hb := agent_absent_or_last_wins ["@@"] c10bBoard (by decide)
  exact ⟨ha.1.trans (by decide), ha.2 (by decide), hb.1.trans (by decide)⟩

/-- Helper: the strict sort-key order implies the weak one. -/
theorem targetLtP_le {a c : Nat × Nat} (h : targetLtP a c) : targetLe a c = true := by
  rcases h with h | ⟨h1, h2⟩ <;>
    simp [targetLe, decide_eq_true_eq, beq_iff_eq] <;> omega

/-- Helper: inserting below the head of a list keeps it in front. -/
theorem insertT_of_le (a : Nat × Nat) (l : List (Nat × Nat))
    (h : ∀ c ∈ l.head?, targetLe a c = true) : insertT a l = a :: l := by
  cases l with
  | nil => rfl
  | cons c t => simp [insertT, h c (by simp)]

/-- Helper: sorting an already (weakly) sorted list is the identity. -/
theorem pySort_sorted_eq_self :
    ∀ l : List (Nat × Nat),
      List.Chain' (fun a c => targetLe a c = true) l → pySortTargets l = l := by
  intro l
  induction l with
  | nil => intro _; rfl
  | cons a t ih =>
    intro h
    rw [List.chain'_cons'] at h
    simp only [pySortTargets]
    rw [ih h.2]
    exact insertT_of_le a t h.1

/-- Helper: every cell produced by a row scan lies in that row, at or
after the starting column. -/
theorem scanRow_mem (p : Char → Bool) (y : Nat) :
    ∀ (cs : List Char) (x : Nat) (q : Nat × Nat),
      q ∈ scanRow p y x cs → q.2 = y ∧ x ≤ q.1 := by
  intro cs
  induction cs with
  | nil => intro x q hq; simp [scanRow] at hq
  | cons c cs ih =>
    intro x q hq
    simp only [scanRow] at hq
    by_cases hc : p c = true
    · rw [if_pos hc] at hq
      rcases List.mem_cons.mp hq with rfl | hq'
      · exact ⟨rfl, Nat.le_refl _⟩
      · obtain ⟨h1, h2⟩ := ih (x + 1) q hq'
        exact ⟨h1, Nat.le_of_succ_le h2⟩
    · rw [if_neg hc] at hq
      obtain ⟨h1, h2⟩ := ih (x + 1) q hq
      exact ⟨h1, Nat.le_of_succ_le h2⟩

/-- Helper: one row scan is strictly increasing in the sort key. -/
theorem scanRow_chain (p : Char → Bool) (y : Nat) :
    ∀ (cs : List Char) (x : Nat), List.Chain' targetLtP (scanRow p y x cs) := by
  intro cs
  induction cs with
  | nil => intro x; simp [scanRow]
  | cons c cs ih =>
    intro x
    by_cases hc : p c = true
    · simp only [scanRow, if_pos hc]
      rw [List.chain'_cons']
      refine ⟨?_, ih (x + 1)⟩
      intro q hq
      obtain ⟨h1, h2⟩ := scanRow_mem p y cs (x + 1) q (List.mem_of_mem_head? hq)
      exact Or.inr ⟨h1.symm, Nat.lt_of_succ_le h2⟩
    · simp only [scanRow, if_neg hc]
      exact ih (x + 1)

/-- Helper: every cell produced by a multi-row scan lies in a row at or
below the starting row. -/
theorem scanRows_mem (p : Char → Bool) :
    ∀ (rows : List (List Char)) (y : Nat) (q : Nat × Nat),
      q ∈ scanRows p y rows → y ≤ q.2 := by
  intro rows
  induction rows with
  | nil => intro y q hq; simp [scanRows] at hq
  | cons r rs ih =>
    intro y q hq
    simp only [scanRows] at hq
    rcases List.mem_append.mp hq with h | h
    · exact Nat.le_of_eq (scanRow_mem p y r 0 q h).1.symm
    · exact Nat.le_of_succ_le (ih (y + 1) q h)

/-- Helper: a row-major scan is strictly increasing in the sort key
`(y, x)` — so in particular the parsed target list is already sorted. -/
theorem scanRows_chain (p : Char → Bool) :
    ∀ (rows : List (List Char)) (y : Nat),
      List.Chain' targetLtP (scanRows p y rows) := by
  intro rows
  induction rows with
  | nil => intro y; simp [scanRows]
  | cons r rs ih =>
    intro y
    simp only [scanRows]
    refine List.Chain'.append (scanRow_chain p y r 0) (ih (y + 1)) ?_
    intro a ha c hc
    obtain ⟨hne, rfl⟩ := List.mem_getLast?_eq_getLast ha
    have h1 := (scanRow_mem p y r 0 _ (List.getLast_mem hne)).1
    have h2 := scanRows_mem p rs (y + 1) _ (List.mem_of_mem_head? hc)
    exact Or.inl (by omega)

/-- C3: the Board is observably immutable under synthesis: for every
parsed board, running `generate_smv_model` leaves every field of the board
with the value it had before the call — the in-place
`targets.sort(key=(y, x))` at line 81 is the identity on a parsed board,
because the row-major scan already produces targets in `(y, x)` order. -/
theorem synthesis_leaves_parsed_board_unchanged (input : List String) (b : Board)
    (h : parse_xsb_board input = some b) :
    generate_run b = (generate_smv_model b, b) := by
  have htargets : b.targets = scanRows isTargetCh 0 (paddedRows input) := by
    unfold parse_xsb_board at h
    rcases hrows : boardRows input with _ | ⟨r, rs⟩
    · rw [hrows] at h; simp at h
    · rw [hrows] at h
      rw [← Option.some.inj h]
  have hsorted : pySortTargets b.targets = b.targets := by
    rw [htargets]
    exact pySort_sorted_eq_self _
      (List.Chain'.imp (fun a c hl => targetLtP_le hl) (scanRows_chain isTargetCh _ 0))
  unfold generate_run
  simp only [Prod.mk.injEq]
  refine ⟨trivial, ?_⟩
  rcases b with ⟨bd, w, hh, ws, ts, bs, pl⟩
  simp only [sortedTargets] at hsorted ⊢
  simp [hsorted]

/-- C3 witness: the parsed board of `[".$@"]` is returned unchanged. -/
theorem synthesis_leaves_parsed_board_unchanged_witness :
    generate_run c3Board = (generate_smv_model c3Board, c3Board) :=
  synthesis_leaves_parsed_board_unchanged [".$@"] c3Board (by decide)

end VSokoban
